import Mathlib

/-!
Verification of the HubSpot → NetSuite bridge ("hubspot-netsuite-bff").

This file shallowly embeds the event-handling core of the repository:

* `src/unnamed/part_001` — the webhook handler `handleHubSpotEvent` (the most
  complete variant, with the deal lifecycle: quote on creation, quote→order
  conversion on closed-won);
* `src/services/netsuiteService.js` (second variant in the file, the one that
  exports `updateCustomerInNS` imported by the handler) — `buildOAuthHeader`,
  `callNetSuite`, `createCustomerInNS` / `updateCustomerInNS` /
  `createItemInNS` / `createSalesOrderInNS` and the line-item resolution loop.

JavaScript strings are Lean `String`s, JS objects whose values are strings are
association lists `List (String × String)`, possibly-absent values are
`Option String`, and JS numbers produced by `parseFloat` are `Option ℚ`
(`none` standing for `NaN`).  Network effects are made explicit: CRM fetches
are collected in a list of `CrmFetch` values and the single outbound ERP
dispatch is an `Option ErpRequest`.
-/

/-- JS truthiness of a string: the empty string is falsy. -/
def truthyStr (s : String) : Bool := !s.isEmpty

/-- JS truthiness of a possibly-absent string (`undefined` and `""` are falsy). -/
def truthyOpt (o : Option String) : Bool :=
  match o with
  | some s => !s.isEmpty
  | none => false

/-- JS `o || d` for a possibly-absent string `o` and a string default `d`. -/
def jsOrStr (o : Option String) (d : String) : String :=
  match o with
  | some s => if s.isEmpty then d else s
  | none => d

/-- JS property read on an object with string values: first binding wins
(keys of a JS object are unique, so association lists with distinct keys
model objects exactly). -/
def getProp (props : List (String × String)) (k : String) : Option String :=
  match props with
  | [] => none
  | (k2, v) :: rest => if k = k2 then some v else getProp rest k

/-- JS `Array.filter(Boolean)` over a list of possibly-absent strings:
drops `undefined` entries and empty strings. -/
def jsFilterBoolean (l : List (Option String)) : List String :=
  l.filterMap (fun o =>
    match o with
    | some s => if s.isEmpty then none else some s
    | none => none)

/-- Numeric value of a digit string (most significant first). -/
def natOfDigits (ds : List Char) : Nat :=
  ds.foldl (fun a c => a * 10 + (c.toNat - 48)) 0

/-- JS `parseFloat` on decimal/scientific literals: skips leading whitespace,
reads an optional sign, an integer part, an optional fractional part and an
optional exponent, ignoring any trailing garbage; returns `none` for `NaN`
(no digits at all).  (`Infinity` literals are not modelled; no code path or
claim feeds them.) -/
def parseFloat (s : String) : Option ℚ :=
  let cs := s.toList.dropWhile (fun c => c = ' ' || c = '\t' || c = '\n' || c = '\r')
  let signAndRest : Int × List Char :=
    match cs with
    | '-' :: rest => (-1, rest)
    | '+' :: rest => (1, rest)
    | _ => (1, cs)
  let sign := signAndRest.1
  let cs1 := signAndRest.2
  let intPart := cs1.takeWhile Char.isDigit
  let rest1 := cs1.dropWhile Char.isDigit
  let fracPart :=
    match rest1 with
    | '.' :: r => r.takeWhile Char.isDigit
    | _ => []
  let rest2 :=
    match rest1 with
    | '.' :: r => r.dropWhile Char.isDigit
    | _ => rest1
  if intPart.isEmpty && fracPart.isEmpty then none
  else
    let expVal : Int :=
      match rest2 with
      | c :: r =>
        if c = 'e' || c = 'E' then
          let expSignAndRest : Int × List Char :=
            match r with
            | '-' :: r2 => (-1, r2)
            | '+' :: r2 => (1, r2)
            | _ => (1, r)
          let expDigits := expSignAndRest.2.takeWhile Char.isDigit
          if expDigits.isEmpty then 0 else expSignAndRest.1 * (natOfDigits expDigits : Int)
        else 0
      | [] => 0
    -- value = sign * (intDigits·10^|frac| + fracDigits) · 10^(expVal - |frac|),
    -- written as a single normalized fraction of machine integers
    let m : Nat := natOfDigits intPart * 10 ^ fracPart.length + natOfDigits fracPart
    let e : Int := expVal - (fracPart.length : Int)
    if 0 ≤ e then some (mkRat (sign * (m : Int) * ((10 ^ e.toNat : Nat) : Int)) 1)
    else some (mkRat (sign * (m : Int)) (10 ^ (-e).toNat))

/-- The characters `encodeURIComponent` leaves unescaped: ASCII alphanumerics
and `- _ . ! ~ * ' ( )`. -/
def isUnreservedChar (c : Char) : Bool :=
  c.isAlphanum || c = '-' || c = '_' || c = '.' || c = '!' || c = '~' ||
    c = '*' || c = Char.ofNat 39 || c = '(' || c = ')'

/-- Upper-case hexadecimal digit. -/
def hexDigit (n : Nat) : Char :=
  if n < 10 then Char.ofNat (48 + n) else Char.ofNat (55 + n)

/-- UTF-8 bytes of a Unicode scalar value. -/
def utf8Bytes (c : Char) : List Nat :=
  let n := c.toNat
  if n < 128 then [n]
  else if n < 2048 then [192 + n / 64, 128 + n % 64]
  else if n < 65536 then [224 + n / 4096, 128 + (n / 64) % 64, 128 + n % 64]
  else [240 + n / 262144, 128 + (n / 4096) % 64, 128 + (n / 64) % 64, 128 + n % 64]

/-- Percent-encoding of one character, as done by `encodeURIComponent`. -/
def percentEncodeChar (c : Char) : String :=
  if isUnreservedChar c then String.singleton c
  else String.join ((utf8Bytes c).map (fun b => String.mk ['%', hexDigit (b / 16), hexDigit (b % 16)]))

/-- JS `encodeURIComponent`. -/
def encodeURIComponent (s : String) : String :=
  String.join (s.toList.map percentEncodeChar)

example : encodeURIComponent "a b" = "a%20b" := by decide
example : encodeURIComponent "a!b" = "a!b" := by decide
example : parseFloat "2.5" = some (mkRat 5 2) := by decide
example : parseFloat "1e3" = some 1000 := by decide
example : parseFloat "12x" = some 12 := by decide
example : parseFloat "abc" = none := by decide
example : parseFloat "0" = some 0 := by decide

/-!
## Signed Request Client — `buildOAuthHeader` (src/services/netsuiteService.js)

The live variant (the one used by `callNetSuite`) builds the parameter set as
`{...oauthParams, ...Object.fromEntries(url.searchParams)}`, sorts the raw
keys with `Object.keys(...).sort()`, percent-encodes each key and value, and
concatenates `METHOD & enc(origin+pathname) & enc(sortedParamString)`.
The URL is passed here already split into its base (`origin + pathname`) and
its decoded query parameters, which is what `new URL(...)` produces.
-/

/-- The six `oauth_*` parameters, in the insertion order of the source's
object literal (nonce and timestamp are produced fresh per call; they are
inputs here). -/
def oauthParams (consumerKey tokenId timestamp nonce : String) : List (String × String) :=
  [("oauth_consumer_key", consumerKey),
   ("oauth_token", tokenId),
   ("oauth_signature_method", "HMAC-SHA256"),
   ("oauth_timestamp", timestamp),
   ("oauth_nonce", nonce),
   ("oauth_version", "1.0")]

/-- JS object spread `{...a, ...b}` on string-valued objects with unique keys:
keys of `a` keep their position (value overridden by `b` when present), keys
of `b` not in `a` follow in order. -/
def spreadMerge (a b : List (String × String)) : List (String × String) :=
  a.map (fun p => (p.1, (getProp b p.1).getD p.2)) ++
    b.filter (fun p => (getProp a p.1).isNone)

/-- The signature parameter set: the six `oauth_*` parameters merged with the
query parameters of the target URL. -/
def signatureParams (consumerKey tokenId timestamp nonce : String)
    (queryParams : List (String × String)) : List (String × String) :=
  spreadMerge (oauthParams consumerKey tokenId timestamp nonce) queryParams

/-- One insertion step of insertion sort under a boolean order. -/
def insertSortedBy (le : α → α → Bool) (a : α) : List α → List α
  | [] => [a]
  | b :: l => if le a b then a :: b :: l else b :: insertSortedBy le a l

/-- Insertion sort under a boolean order — the model of JS `Array.sort()`
(whose default comparator orders strings by code units; the arrays sorted by
the code have pairwise-distinct elements, so any correct sort is the same
function). -/
def sortBy (le : α → α → Bool) : List α → List α
  | [] => []
  | b :: l => insertSortedBy le b (sortBy le l)

/-- Code-unit lexicographic comparison of char lists. -/
def charListLe : List Char → List Char → Bool
  | [], _ => true
  | _ :: _, [] => false
  | a :: as, b :: bs =>
    if a.toNat < b.toNat then true
    else if a.toNat = b.toNat then charListLe as bs
    else false

/-- The string order used by JS `Array.prototype.sort()` on keys
(lexicographic by code units). -/
def strLe (a b : String) : Bool := charListLe a.toList b.toList

/-- Order on parameter pairs by key. -/
def keyLe (p q : String × String) : Bool := strLe p.1 q.1

/-- `Object.keys(signatureParams).sort().map(k => enc(k)=enc(params[k])).join('&')`
— the code sorts the RAW keys, then percent-encodes key and value of each
pair. -/
def sortedParamString (ps : List (String × String)) : String :=
  String.intercalate "&"
    ((sortBy strLe (ps.map Prod.fst)).map
      (fun k => encodeURIComponent k ++ "=" ++ encodeURIComponent ((getProp ps k).getD "")))

/-- JS `String.prototype.toUpperCase` restricted to ASCII (the HTTP method
names fed to it are ASCII). -/
def jsToUpperChar (c : Char) : Char :=
  if 97 ≤ c.toNat && c.toNat ≤ 122 then Char.ofNat (c.toNat - 32) else c

/-- JS `method.toUpperCase()`. -/
def jsToUpper (s : String) : String := String.mk (s.toList.map jsToUpperChar)

/-- The OAuth signature base string
`METHOD & enc(origin+pathname) & enc(sortedParamString)`. -/
def oauthBaseString (method baseUrl : String) (ps : List (String × String)) : String :=
  jsToUpper method ++ "&" ++ encodeURIComponent baseUrl ++ "&" ++
    encodeURIComponent (sortedParamString ps)

/-- The parameter string exactly as the claim words it: percent-encode both
key and value of every pair FIRST, then sort the pairs lexicographically by
the (percent-encoded) key, then join. -/
def claimSortedParamString (ps : List (String × String)) : String :=
  String.intercalate "&"
    ((sortBy keyLe (ps.map (fun p => (encodeURIComponent p.1, encodeURIComponent p.2)))).map
      (fun p => p.1 ++ "=" ++ p.2))

/-- Base string built from `claimSortedParamString`. -/
def claimBaseString (method baseUrl : String) (ps : List (String × String)) : String :=
  jsToUpper method ++ "&" ++ encodeURIComponent baseUrl ++ "&" ++
    encodeURIComponent (claimSortedParamString ps)

/-- The parameter string with the sort applied to the pairs under the RAW
(pre-encoding) key order, encoding afterwards — the amended reading. -/
def amendedSortedParamString (ps : List (String × String)) : String :=
  String.intercalate "&"
    ((sortBy keyLe ps).map
      (fun p => encodeURIComponent p.1 ++ "=" ++ encodeURIComponent p.2))

/-- Base string built from `amendedSortedParamString`. -/
def amendedBaseString (method baseUrl : String) (ps : List (String × String)) : String :=
  jsToUpper method ++ "&" ++ encodeURIComponent baseUrl ++ "&" ++
    encodeURIComponent (amendedSortedParamString ps)

/-!
## Configuration and CRM environment

Process-wide configuration read from the environment (read-only after
startup).  Every variable is a possibly-absent string.
-/

structure Config where
  hubspotToken : Option String
  closedWonStageEnv : Option String
  customerUrl : Option String
  itemUrl : Option String
  salesOrderUrl : Option String
  skuOverrideEnv : Option String
  nsAccountId : Option String
  nsConsumerKey : Option String
  nsConsumerSecret : Option String
  nsTokenId : Option String
  nsTokenSecret : Option String
deriving DecidableEq

/-- `process.env.HUBSPOT_CLOSED_WON_STAGE_ID || 'closedwon'`. -/
def CLOSED_WON_STAGE_ID (cfg : Config) : String :=
  jsOrStr cfg.closedWonStageEnv "closedwon"

/-- `buildOAuthHeader` throws unless all five NetSuite TBA variables are
truthy. -/
def nsEnvComplete (cfg : Config) : Bool :=
  truthyOpt cfg.nsAccountId && truthyOpt cfg.nsConsumerKey &&
    truthyOpt cfg.nsConsumerSecret && truthyOpt cfg.nsTokenId &&
    truthyOpt cfg.nsTokenSecret

/-- A CRM (HubSpot) record as the resolution logic consumes it: an id, a
string-valued property bag, and the optionally-embedded association id lists
(`associations.companies.results` / `associations.line_items.results`;
`none` models an absent association set, `some []` an empty `results`
array). -/
structure CrmRecord where
  id : String
  properties : List (String × String)
  assocCompanies : Option (List String)
  assocLineItems : Option (List String)
deriving DecidableEq

/-- The CRM read-only surface the code calls into: object fetch by canonical
type and id, and the secondary associations fetch
`/crm/v3/objects/deals/{id}/associations/{toType}` (a list of associated
ids). -/
structure CrmEnv where
  records : String → String → CrmRecord
  dealAssociations : String → String → List String

/-- One network call against the CRM. -/
inductive CrmFetch where
  | object (apiObjectType objectId : String)
  | assoc (dealId toObjectType : String)
deriving DecidableEq

/-- One dispatched (signed) ERP request: the HTTP method and the RESTlet URL
it is issued against. -/
structure ErpRequest where
  method : String
  url : String
deriving DecidableEq

/-- `callNetSuite(method, url, payload)`: a falsy URL means "operation
disabled" (no call, no error); otherwise `buildOAuthHeader` throws when the
TBA variables are incomplete (`.error ()`), else the signed request goes out. -/
def callNetSuite (cfg : Config) (method : String) (url : Option String) :
    Except Unit (Option ErpRequest) :=
  if truthyOpt url = false then .ok none
  else if nsEnvComplete cfg = false then .error ()
  else .ok (some ⟨method, url.getD ""⟩)

/-!
## Line-item resolution (`createSalesOrderInNS`, src/services/netsuiteService.js)
-/

/-- `['item_sku', 'hs_sku', 'sku', process.env.HUBSPOT_ITEM_SKU_PROPERTY].filter(Boolean)`. -/
def skuPropCandidates (cfg : Config) : List String :=
  jsFilterBoolean [some "item_sku", some "hs_sku", some "sku", cfg.skuOverrideEnv]

/-- The loop `for (const propName of candidates) if (props[propName]) { ...; break }`:
first candidate whose property value is truthy wins. -/
def firstTruthyProp (props : List (String × String)) : List String → Option String
  | [] => none
  | c :: rest =>
    match getProp props c with
    | some v => if v.isEmpty then firstTruthyProp props rest else some v
    | none => firstTruthyProp props rest

/-- `parseFloat(props.quantity || '1')`, then `isNaN(quantity) ? 1 : quantity`. -/
def liQuantity (props : List (String × String)) : ℚ :=
  match parseFloat (jsOrStr (getProp props "quantity") "1") with
  | none => 1
  | some q => q

/-- `parseFloat(props.price || '0')`, then `isNaN(rate) ? undefined : rate`. -/
def liRate (props : List (String × String)) : Option ℚ :=
  parseFloat (jsOrStr (getProp props "price") "0")

/-- A mapped line item of the order payload. -/
structure LineItem where
  itemInternalId : String
  quantity : ℚ
  rate : Option ℚ
  hubspotLineItemId : String
deriving DecidableEq

/-- The line item pushed for a resolvable line-item record. -/
def mkLineItem (cfg : Config) (props : List (String × String)) (lineItemId : String) : LineItem :=
  { itemInternalId := (firstTruthyProp props (skuPropCandidates cfg)).getD ""
    quantity := liQuantity props
    rate := liRate props
    hubspotLineItemId := lineItemId }

/-- The resolution loop of `createSalesOrderInNS`: fetch each line item's own
record (`/crm/v3/objects/line_items/{id}`), pick the first truthy SKU
candidate from ITS properties as the NetSuite item internal id, parse
quantity and price, and skip (`continue`) any line item with no usable SKU
property. -/
def resolveLineItems (cfg : Config) (env : CrmEnv) : List String → List LineItem
  | [] => []
  | lineItemId :: rest =>
    let props := (env.records "line_items" lineItemId).properties
    match firstTruthyProp props (skuPropCandidates cfg) with
    | none => resolveLineItems cfg env rest
    | some itemInternalId =>
      { itemInternalId := itemInternalId
        quantity := liQuantity props
        rate := liRate props
        hubspotLineItemId := lineItemId } :: resolveLineItems cfg env rest

/-- Definition following claim C6's words, for comparison with
`resolveLineItems`: the resolver is said to fetch the catalog item that the
line item REFERENCES (a separate fetch of the referenced catalog-item
record, referenced through the line item's `hs_product_id` product pointer)
and to read the designated identifier field from THAT catalog item, trying
the candidate field names in the same fixed priority order. -/
def claimResolveLineItems (cfg : Config) (env : CrmEnv) : List String → List LineItem
  | [] => []
  | lineItemId :: rest =>
    let liProps := (env.records "line_items" lineItemId).properties
    let productId := (getProp liProps "hs_product_id").getD ""
    let catalogProps := (env.records "products" productId).properties
    match firstTruthyProp catalogProps (skuPropCandidates cfg) with
    | none => claimResolveLineItems cfg env rest
    | some itemInternalId =>
      { itemInternalId := itemInternalId
        quantity := liQuantity liProps
        rate := liRate liProps
        hubspotLineItemId := lineItemId } :: claimResolveLineItems cfg env rest

/-- The payload sent to the sales-order RESTlet:
`{ hubspotDealId, hubspotCompanyId, lineItems }`. -/
structure OrderPayload where
  hubspotDealId : String
  hubspotCompanyId : Option String
  lineItems : List LineItem
deriving DecidableEq

/-- Outcome of `createSalesOrderInNS`: the CRM fetches it performed, the
payload it assembled (absent when it threw before assembling one), the ERP
request it dispatched, and whether it threw. -/
structure SOOutcome where
  fetches : List CrmFetch
  payload : Option OrderPayload
  req : Option ErpRequest
  errored : Bool
deriving DecidableEq

/-- Company association resolution inside `createSalesOrderInNS`: the
embedded `associations.companies.results[0]` wins when present with a truthy
id; otherwise one fallback associations fetch, whose first result id (made
`null` by `|| null` when falsy) is used. Returns the fallback fetches
performed and `hubspotCompanyId`. -/
def resolveCompanyAssoc (env : CrmEnv) (deal : CrmRecord) :
    List CrmFetch × Option String :=
  let fallback : List CrmFetch × Option String :=
    ([CrmFetch.assoc deal.id "companies"],
      match env.dealAssociations deal.id "companies" with
      | [] => none
      | c :: _ => if c.isEmpty then none else some c)
  match deal.assocCompanies with
  | some (c :: _) => if c.isEmpty then fallback else ([], some c)
  | some [] => fallback
  | none => fallback

/-- Line-item association id resolution inside `createSalesOrderInNS`:
embedded `associations.line_items.results` when non-empty, else one fallback
associations fetch; the result ids are passed through
`.map(li => li.id?.toString()).filter(Boolean)`. -/
def resolveLineItemIds (env : CrmEnv) (deal : CrmRecord) :
    List CrmFetch × List String :=
  let embedded := deal.assocLineItems.getD []
  let withFallback : List CrmFetch × List String :=
    if embedded.isEmpty then
      ([CrmFetch.assoc deal.id "line_items"], env.dealAssociations deal.id "line_items")
    else ([], embedded)
  (withFallback.1, withFallback.2.filter truthyStr)

/-- `createSalesOrderInNS(deal)` (the full second-variant implementation):
throws without the HubSpot token; resolves the company association and the
line-item ids (with association-API fallbacks), fetches every line item and
maps it (dropping unresolvable ones), assembles the payload, and dispatches
it with `callNetSuite('POST', NS_RESTLET_SALESORDER_URL, payload)`. -/
def createSalesOrderInNS (cfg : Config) (env : CrmEnv) (deal : CrmRecord) : SOOutcome :=
  if truthyOpt cfg.hubspotToken = false then ⟨[], none, none, true⟩
  else
    let companyRes := resolveCompanyAssoc env deal
    let idsRes := resolveLineItemIds env deal
    let lineItemIds := idsRes.2
    let lineItems := resolveLineItems cfg env lineItemIds
    let fetches := companyRes.1 ++ idsRes.1 ++ lineItemIds.map (CrmFetch.object "line_items")
    let payload : OrderPayload := ⟨deal.id, companyRes.2, lineItems⟩
    match callNetSuite cfg "POST" cfg.salesOrderUrl with
    | .ok r => ⟨fetches, some payload, r, false⟩
    | .error _ => ⟨fetches, some payload, none, true⟩

/-- Modelled from the spec: `convertQuoteToSalesOrder` is imported by the
handler from the ERP service module, but its definition is not among the
source files.  Per the spec (§4.1, §8) it dispatches the quote→sales-order
conversion for the deal as a signed POST to the ERP's order endpoint.  Only
the fact that it is a dispatch attempt matters to the claims; none of them
inspects its request. -/
def convertQuoteToSalesOrder (cfg : Config) : Except Unit (Option ErpRequest) :=
  callNetSuite cfg "POST" cfg.salesOrderUrl

/-!
## Event Classifier / webhook handler (`handleHubSpotEvent`, src/unnamed/part_001)
-/

/-- Tail of `subscriptionType.split('.')`: accumulates the current segment
(in reverse) and splits at every dot. -/
def jsSplitDotAux : List Char → List Char → List String
  | [], acc => [String.mk acc.reverse]
  | c :: rest, acc =>
    if c = '.' then String.mk acc.reverse :: jsSplitDotAux rest []
    else jsSplitDotAux rest (c :: acc)

/-- JS `s.split('.')` (agrees with `String.splitOn` for separator `"."`). -/
def jsSplitDot (s : String) : List String := jsSplitDotAux s.toList []

/-- The inbound webhook notification as consumed:
`{ objectId, subscriptionType }` (either may be absent). -/
structure WebhookEvent where
  objectId : Option String
  subscriptionType : Option String
deriving DecidableEq

/-- The fixed raw-object-type mapping `HUBSPOT_OBJECT_TYPE_MAP`. -/
def HUBSPOT_OBJECT_TYPE_MAP (rawType : String) : Option String :=
  if rawType = "company" then some "companies"
  else if rawType = "deal" then some "deals"
  else if rawType = "product" then some "products"
  else if rawType = "contact" then some "contacts"
  else none

/-- What the handler decided to do for an event (which branch it took). -/
inductive ErpAction where
  | Skip
  | UpsertCustomerCreate
  | UpsertCustomerUpdate
  | UpsertItem
  | CreateQuote
  | ConvertQuoteToOrder
  | Aborted
deriving DecidableEq

/-- Observable outcome of one `handleHubSpotEvent` call: the CRM fetches it
(and its callees) performed, the ERP request dispatched (if any), the branch
taken, and whether an exception was caught by the handler's catch-all
(`handleHubSpotEvent` itself never raises). -/
structure HandlerResult where
  crmFetches : List CrmFetch
  erpCall : Option ErpRequest
  action : ErpAction
  errored : Bool
deriving DecidableEq

/-- `handleHubSpotEvent(event)` from `src/unnamed/part_001` (the handler with
the deal lifecycle; the guard and company/product/contact branches are
identical in `src/services/hubspotService.js`):

1. missing/falsy `objectId` or `subscriptionType` → skip, nothing else runs;
2. `subscriptionType.split('.')` into `(rawType, rawEvent)`; unmapped
   `rawType` → skip, nothing else runs;
3. `fetchHubSpotRecord` (throws before any network call when the HubSpot
   token is falsy — the catch-all eats it);
4. branch on the canonical object type as in the source's `switch`. -/
def handleHubSpotEvent (cfg : Config) (env : CrmEnv) (ev : WebhookEvent) : HandlerResult :=
  if truthyOpt ev.objectId = false ∨ truthyOpt ev.subscriptionType = false then
    ⟨[], none, .Skip, false⟩
  else
    let objectId := ev.objectId.getD ""
    let parts := jsSplitDot (ev.subscriptionType.getD "")
    let rawEvent := (parts.drop 1).head?
    match HUBSPOT_OBJECT_TYPE_MAP (parts.headD "") with
    | none => ⟨[], none, .Skip, false⟩
    | some apiObjectType =>
      if truthyOpt cfg.hubspotToken = false then ⟨[], none, .Aborted, true⟩
      else
        let record := env.records apiObjectType objectId
        let fetch0 := [CrmFetch.object apiObjectType objectId]
        if apiObjectType = "companies" then
          if rawEvent = some "creation" then
            match callNetSuite cfg "POST" cfg.customerUrl with
            | .ok r => ⟨fetch0, r, .UpsertCustomerCreate, false⟩
            | .error _ => ⟨fetch0, none, .UpsertCustomerCreate, true⟩
          else
            match callNetSuite cfg "PUT" cfg.customerUrl with
            | .ok r => ⟨fetch0, r, .UpsertCustomerUpdate, false⟩
            | .error _ => ⟨fetch0, none, .UpsertCustomerUpdate, true⟩
        else if apiObjectType = "contacts" then
          ⟨fetch0, none, .Skip, false⟩
        else if apiObjectType = "products" then
          match callNetSuite cfg "POST" cfg.itemUrl with
          | .ok r => ⟨fetch0, r, .UpsertItem, false⟩
          | .error _ => ⟨fetch0, none, .UpsertItem, true⟩
        else if apiObjectType = "deals" then
          if rawEvent = some "creation" then
            let so := createSalesOrderInNS cfg env record
            ⟨fetch0 ++ so.fetches, so.req, .CreateQuote, so.errored⟩
          else if getProp record.properties "dealstage" = some (CLOSED_WON_STAGE_ID cfg) then
            -- conversion errors are swallowed by the branch's own try/catch
            match convertQuoteToSalesOrder cfg with
            | .ok r => ⟨fetch0, r, .ConvertQuoteToOrder, false⟩
            | .error _ => ⟨fetch0, none, .ConvertQuoteToOrder, false⟩
          else ⟨fetch0, none, .Skip, false⟩
        else ⟨fetch0, none, .Skip, false⟩

/-!
## Lemmas
-/

/-- Projecting the key out of a by-key insertion commutes with inserting the
key into the projected list (the two orders compare exactly the same keys). -/
theorem insertSortedBy_map_fst (p : String × String) (l : List (String × String)) :
    (insertSortedBy keyLe p l).map Prod.fst = insertSortedBy strLe p.1 (l.map Prod.fst) := by
  induction l with
  | nil => rfl
  | cons q t ih =>
    by_cases h : keyLe p q = true
    · simp [insertSortedBy, h, keyLe] at *
      simp [h]
    · have h2 : strLe p.1 q.1 = false := by
        revert h
        unfold keyLe
        cases strLe p.1 q.1 <;> simp
      simp [insertSortedBy, keyLe, h2, ih]

/-- Sorting parameter pairs by key and projecting the keys is sorting the
keys. -/
theorem sortBy_map_fst (l : List (String × String)) :
    (sortBy keyLe l).map Prod.fst = sortBy strLe (l.map Prod.fst) := by
  induction l with
  | nil => rfl
  | cons q t ih => simp [sortBy, insertSortedBy_map_fst, ih]

/-- Insertion introduces no new elements. -/
theorem mem_of_mem_insertSortedBy {le : α → α → Bool} {x a : α} {l : List α}
    (h : x ∈ insertSortedBy le a l) : x = a ∨ x ∈ l := by
  induction l with
  | nil => simpa [insertSortedBy] using h
  | cons b t ih =>
    by_cases hb : le a b = true
    · simpa [insertSortedBy, hb, or_assoc] using h
    · simp [insertSortedBy, hb] at h
      rcases h with h | h
      · exact Or.inr (by simp [h])
      · rcases ih h with h2 | h2
        · exact Or.inl h2
        · exact Or.inr (List.mem_cons_of_mem _ h2)

/-- Sorting introduces no new elements. -/
theorem mem_of_mem_sortBy {le : α → α → Bool} {x : α} {l : List α}
    (h : x ∈ sortBy le l) : x ∈ l := by
  induction l with
  | nil => simp [sortBy] at h
  | cons b t ih =>
    rcases mem_of_mem_insertSortedBy h with h2 | h2
    · simp [h2]
    · simp [ih h2]

/-- On an association list with pairwise-distinct keys, looking a member
pair's key up returns that pair's value. -/
theorem getProp_eq_some_of_nodup {l : List (String × String)} {p : String × String}
    (hnd : (l.map Prod.fst).Nodup) (hp : p ∈ l) : getProp l p.1 = some p.2 := by
  induction l with
  | nil => cases hp
  | cons q t ih =>
    rw [List.map_cons, List.nodup_cons] at hnd
    obtain ⟨hq, hnd2⟩ := hnd
    rcases List.mem_cons.mp hp with h | h
    · subst h
      simp [getProp]
    · have hne : p.1 ≠ q.1 := fun he => hq (he ▸ List.mem_map.mpr ⟨p, h, rfl⟩)
      simp [getProp, hne, ih hnd2 h]

/-- `getProp` misses exactly the keys that are not in the list. -/
theorem getProp_isNone_iff (l : List (String × String)) (k : String) :
    (getProp l k).isNone = true ↔ k ∉ l.map Prod.fst := by
  induction l with
  | nil => simp [getProp]
  | cons q t ih =>
    by_cases h : k = q.1
    · subst h
      simp [getProp]
    · simp [getProp, h, ih, Ne.symm h]

/-- The keys of the merged signature parameter set: the six fixed `oauth_*`
keys followed by the query keys not shadowing them. -/
theorem signatureParams_map_fst (ck tk ts nonce : String) (qp : List (String × String)) :
    (signatureParams ck tk ts nonce qp).map Prod.fst =
      ["oauth_consumer_key", "oauth_token", "oauth_signature_method",
        "oauth_timestamp", "oauth_nonce", "oauth_version"] ++
        (qp.filter (fun p => (getProp (oauthParams ck tk ts nonce) p.1).isNone)).map Prod.fst := by
  simp [signatureParams, spreadMerge, oauthParams]

/-- Distinct query keys keep the merged signature parameter keys distinct. -/
theorem signatureParams_fst_nodup (ck tk ts nonce : String) (qp : List (String × String))
    (h : (qp.map Prod.fst).Nodup) :
    ((signatureParams ck tk ts nonce qp).map Prod.fst).Nodup := by
  rw [signatureParams_map_fst]
  apply List.Nodup.append
  · decide
  · exact h.sublist ((List.filter_sublist qp).map Prod.fst)
  · intro k hk1 hk2
    rcases List.mem_map.mp hk2 with ⟨p, hpmem, hpk⟩
    rcases List.mem_filter.mp hpmem with ⟨_, hpred⟩
    have : p.1 ∉ (oauthParams ck tk ts nonce).map Prod.fst :=
      (getProp_isNone_iff _ _).mp hpred
    apply this
    rw [hpk]
    simpa [oauthParams] using hk1

/-- With pairwise-distinct keys, sorting the raw keys and looking each up is
the same as sorting the pairs by raw key: the code's parameter string equals
the amended spec reading. -/
theorem sortedParamString_eq_amended (l : List (String × String))
    (hnd : (l.map Prod.fst).Nodup) :
    sortedParamString l = amendedSortedParamString l := by
  unfold sortedParamString amendedSortedParamString
  rw [← sortBy_map_fst, List.map_map]
  apply congrArg (String.intercalate "&")
  apply List.map_congr_left
  intro p hp
  have hmem : p ∈ l := mem_of_mem_sortBy hp
  simp [Function.comp, getProp_eq_some_of_nodup hnd hmem]

/-- The resolution loop is exactly: keep the line items whose own property
bag yields a truthy SKU candidate, and map each kept one to its `LineItem`. -/
theorem resolveLineItems_eq_filter_map (cfg : Config) (env : CrmEnv) (ids : List String) :
    resolveLineItems cfg env ids =
      (ids.filter (fun i =>
          (firstTruthyProp (env.records "line_items" i).properties (skuPropCandidates cfg)).isSome)).map
        (fun i => mkLineItem cfg (env.records "line_items" i).properties i) := by
  induction ids with
  | nil => rfl
  | cons i t ih =>
    unfold resolveLineItems
    cases h : firstTruthyProp (env.records "line_items" i).properties (skuPropCandidates cfg) with
    | none => simp [h, ih]
    | some v => simp [h, ih, mkLineItem]

/-- Every produced line item's `itemInternalId` is the first truthy SKU
candidate of the LINE ITEM's own property bag. -/
theorem itemInternalId_from_lineItem_props (cfg : Config) (env : CrmEnv) :
    ∀ ids li, li ∈ resolveLineItems cfg env ids →
      firstTruthyProp (env.records "line_items" li.hubspotLineItemId).properties
        (skuPropCandidates cfg) = some li.itemInternalId := by
  intro ids
  induction ids with
  | nil => intro li h; cases h
  | cons i t ih =>
    intro li h
    unfold resolveLineItems at h
    cases hc : firstTruthyProp (env.records "line_items" i).properties (skuPropCandidates cfg) with
    | none =>
      simp only [hc] at h
      exact ih li h
    | some v =>
      simp only [hc] at h
      rcases List.mem_cons.mp h with he | hm
      · subst he
        exact hc
      · exact ih li hm

/-- The resolution loop reads nothing but `line_items` object records. -/
theorem resolveLineItems_congr (cfg : Config) (env env2 : CrmEnv)
    (hrec : ∀ i, env.records "line_items" i = env2.records "line_items" i) :
    ∀ ids, resolveLineItems cfg env ids = resolveLineItems cfg env2 ids := by
  intro ids
  induction ids with
  | nil => rfl
  | cons i t ih =>
    unfold resolveLineItems
    rw [hrec i, ih]

/-- Company-association resolution reads only the associations API. -/
theorem resolveCompanyAssoc_congr (env env2 : CrmEnv) (deal : CrmRecord)
    (hassoc : env.dealAssociations = env2.dealAssociations) :
    resolveCompanyAssoc env deal = resolveCompanyAssoc env2 deal := by
  unfold resolveCompanyAssoc
  rw [hassoc]

/-- Line-item-id resolution reads only the associations API. -/
theorem resolveLineItemIds_congr (env env2 : CrmEnv) (deal : CrmRecord)
    (hassoc : env.dealAssociations = env2.dealAssociations) :
    resolveLineItemIds env deal = resolveLineItemIds env2 deal := by
  unfold resolveLineItemIds
  rw [hassoc]

/-- `createSalesOrderInNS` consults only line-item records and the
associations API — two CRM environments agreeing there produce identical
outcomes. -/
theorem createSalesOrderInNS_congr (cfg : Config) (env env2 : CrmEnv) (deal : CrmRecord)
    (hrec : ∀ i, env.records "line_items" i = env2.records "line_items" i)
    (hassoc : env.dealAssociations = env2.dealAssociations) :
    createSalesOrderInNS cfg env deal = createSalesOrderInNS cfg env2 deal := by
  unfold createSalesOrderInNS
  rw [resolveCompanyAssoc_congr env env2 deal hassoc,
    resolveLineItemIds_congr env env2 deal hassoc]
  simp only [resolveLineItems_congr cfg env env2 hrec]

/-- The company fallback performs at most the one associations fetch. -/
theorem resolveCompanyAssoc_fetches (env : CrmEnv) (deal : CrmRecord) :
    (resolveCompanyAssoc env deal).1 = [] ∨
      (resolveCompanyAssoc env deal).1 = [CrmFetch.assoc deal.id "companies"] := by
  unfold resolveCompanyAssoc
  cases h : deal.assocCompanies with
  | none => simp
  | some l =>
    cases l with
    | nil => simp
    | cons c t =>
      by_cases hc : c.isEmpty
      · simp [hc]
      · simp [hc]

/-- The line-item-id fallback performs at most the one associations fetch. -/
theorem resolveLineItemIds_fetches (env : CrmEnv) (deal : CrmRecord) :
    (resolveLineItemIds env deal).1 = [] ∨
      (resolveLineItemIds env deal).1 = [CrmFetch.assoc deal.id "line_items"] := by
  unfold resolveLineItemIds
  by_cases h : (deal.assocLineItems.getD []).isEmpty
  · simp [h]
  · simp [h]

/-- `createSalesOrderInNS` never fetches a catalog-item (`products`) record. -/
theorem createSalesOrderInNS_no_products_fetch (cfg : Config) (env : CrmEnv)
    (deal : CrmRecord) (pid : String) :
    CrmFetch.object "products" pid ∉ (createSalesOrderInNS cfg env deal).fetches := by
  unfold createSalesOrderInNS
  by_cases htok : truthyOpt cfg.hubspotToken = false
  · simp [htok]
  · simp only [htok]
    intro hmem
    have hmem2 : CrmFetch.object "products" pid ∈
        (resolveCompanyAssoc env deal).1 ++ (resolveLineItemIds env deal).1 ++
          (resolveLineItemIds env deal).2.map (CrmFetch.object "line_items") := by
      cases hcall : callNetSuite cfg "POST" cfg.salesOrderUrl with
      | ok r => rw [hcall] at hmem; exact hmem
      | error e => rw [hcall] at hmem; exact hmem
    rw [List.append_assoc, List.mem_append, List.mem_append] at hmem2
    rcases hmem2 with h | h | h
    · rcases resolveCompanyAssoc_fetches env deal with he | he <;> rw [he] at h <;> simp at h
    · rcases resolveLineItemIds_fetches env deal with he | he <;> rw [he] at h <;> simp at h
    · rcases List.mem_map.mp h with ⟨i, _, he⟩
      exact absurd (congrArg (fun f => match f with | CrmFetch.object t _ => t | _ => "") he)
        (by simp)

/-- The three built-in SKU candidate property names, in source order. -/
def builtinSkuCandidates : List String := ["item_sku", "hs_sku", "sku"]

/-- The candidate chain is the three built-ins followed by the optional
environment override (dropped by `.filter(Boolean)` when unset or empty). -/
theorem skuPropCandidates_eq (cfg : Config) :
    skuPropCandidates cfg = builtinSkuCandidates ++ jsFilterBoolean [cfg.skuOverrideEnv] := by
  cases h : cfg.skuOverrideEnv with
  | none =>
    simp only [skuPropCandidates, h]
    rfl
  | some s =>
    simp only [skuPropCandidates, h]
    rfl

/-- When the prefix of the candidate chain already yields a value, the suffix
is never consulted. -/
theorem firstTruthyProp_append_of_isSome (props : List (String × String))
    (l1 l2 : List String) (h : (firstTruthyProp props l1).isSome = true) :
    firstTruthyProp props (l1 ++ l2) = firstTruthyProp props l1 := by
  induction l1 with
  | nil => simp [firstTruthyProp] at h
  | cons c t ih =>
    rw [List.cons_append]
    simp only [firstTruthyProp] at h ⊢
    cases hc : getProp props c with
    | none =>
      simp only [hc] at h ⊢
      exact ih h
    | some v =>
      simp only [hc] at h ⊢
      by_cases hv : v.isEmpty = true
      · simp only [hv, if_true] at h ⊢
        exact ih h
      · simp only [hv, if_false]
        rfl

/-- Evaluation of the object type mapping on the four raw types. -/
theorem objectTypeMap_company : HUBSPOT_OBJECT_TYPE_MAP "company" = some "companies" := by decide

theorem objectTypeMap_deal : HUBSPOT_OBJECT_TYPE_MAP "deal" = some "deals" := by decide

theorem objectTypeMap_contact : HUBSPOT_OBJECT_TYPE_MAP "contact" = some "contacts" := by decide

/-- An event key that splits into a non-empty head is itself non-empty. -/
theorem truthy_subscription_of_split (sub : String) (h : String) (t : List String)
    (hparts : jsSplitDot sub = h :: t) (hne : h ≠ "") :
    truthyOpt (some sub) = true := by
  unfold truthyOpt
  cases hse : sub.isEmpty with
  | false => simp [hse]
  | true =>
    exfalso
    rw [(String.isEmpty_iff sub).mp hse] at hparts
    have : ([""] : List String) = h :: t := hparts
    exact hne (List.cons.inj this).1.symm

/-!
## Claims
-/

/-- C3: an inbound event missing `objectId` or missing the notification key
(`subscriptionType`) makes the handler return Skip, with no CRM fetch, no
ERP dispatch, and no exception. -/
theorem malformed_event_skips_without_network (cfg : Config) (env : CrmEnv) (ev : WebhookEvent)
    (h : truthyOpt ev.objectId = false ∨ truthyOpt ev.subscriptionType = false) :
    handleHubSpotEvent cfg env ev = ⟨[], none, ErpAction.Skip, false⟩ := by
  unfold handleHubSpotEvent
  rw [if_pos h]

/-- Witness for C3 at the concrete event `{subscriptionType: "deal.creation"}`
with no `objectId`. -/
theorem malformed_event_skips_without_network_witness :
    truthyOpt (WebhookEvent.mk none (some "deal.creation")).objectId = false ∧
      handleHubSpotEvent
        ⟨some "t", none, none, none, none, none, none, none, none, none, none⟩
        ⟨fun _ _ => ⟨"", [], none, none⟩, fun _ _ => []⟩
        ⟨none, some "deal.creation"⟩ = ⟨[], none, ErpAction.Skip, false⟩ :=
  ⟨rfl, malformed_event_skips_without_network _ _ _ (Or.inl rfl)⟩

/-- C1: a well-formed deal event whose rawEvent is `creation` always takes
the quote-creation branch (`CreateQuote`), whatever the deal's current
`dealstage` is (the environment `env`, hence the fetched deal's stage, is
arbitrary). -/
theorem deal_creation_always_createQuote (cfg : Config) (env : CrmEnv) (ev : WebhookEvent)
    (sub : String) (rest : List String)
    (hoid : truthyOpt ev.objectId = true)
    (hsub : ev.subscriptionType = some sub)
    (hparts : jsSplitDot sub = "deal" :: "creation" :: rest)
    (htok : truthyOpt cfg.hubspotToken = true) :
    (handleHubSpotEvent cfg env ev).action = ErpAction.CreateQuote := by
  have hts : truthyOpt ev.subscriptionType = true := by
    rw [hsub]
    exact truthy_subscription_of_split sub "deal" _ hparts (by decide)
  unfold handleHubSpotEvent
  rw [if_neg (by simp [hoid, hts])]
  simp only [hsub, Option.getD_some, hparts, List.headD_cons, objectTypeMap_deal,
    List.drop_succ_cons, List.drop_zero, List.head?_cons,
    if_neg (show ¬ truthyOpt cfg.hubspotToken = false by simp [htok]),
    if_neg (show ¬ ("deals" : String) = "companies" by decide),
    if_neg (show ¬ ("deals" : String) = "contacts" by decide),
    if_neg (show ¬ ("deals" : String) = "products" by decide),
    if_pos (show ("deals" : String) = "deals" from rfl),
    if_pos (show (some "creation" : Option String) = some "creation" from rfl)]
  simp

/-- C2: a well-formed deal event whose rawEvent is not `creation` converts
the quote exactly when the fetched deal's current stage equals the
configured closed-won identifier, and skips for every other stage value. -/
theorem deal_noncreation_stage_decides (cfg : Config) (env : CrmEnv) (ev : WebhookEvent)
    (oid sub : String) (rest : List String)
    (hobj : ev.objectId = some oid)
    (hone : oid.isEmpty = false)
    (hsub : ev.subscriptionType = some sub)
    (hparts : jsSplitDot sub = "deal" :: rest)
    (hnc : rest.head? ≠ some "creation")
    (htok : truthyOpt cfg.hubspotToken = true) :
    (getProp (env.records "deals" oid).properties "dealstage" = some (CLOSED_WON_STAGE_ID cfg) →
      (handleHubSpotEvent cfg env ev).action = ErpAction.ConvertQuoteToOrder) ∧
    (getProp (env.records "deals" oid).properties "dealstage" ≠ some (CLOSED_WON_STAGE_ID cfg) →
      handleHubSpotEvent cfg env ev =
        ⟨[CrmFetch.object "deals" oid], none, ErpAction.Skip, false⟩) := by
  have hoid : truthyOpt ev.objectId = true := by
    rw [hobj]
    simp [truthyOpt, hone]
  have hts : truthyOpt ev.subscriptionType = true := by
    rw [hsub]
    exact truthy_subscription_of_split sub "deal" _ hparts (by decide)
  unfold handleHubSpotEvent
  rw [if_neg (by simp [hoid, hts])]
  simp only [hobj, hsub, Option.getD_some, hparts, List.headD_cons, objectTypeMap_deal,
    List.drop_succ_cons, List.drop_zero,
    if_neg (show ¬ truthyOpt cfg.hubspotToken = false by simp [htok]),
    if_neg (show ¬ ("deals" : String) = "companies" by decide),
    if_neg (show ¬ ("deals" : String) = "contacts" by decide),
    if_neg (show ¬ ("deals" : String) = "products" by decide),
    if_pos (show ("deals" : String) = "deals" from rfl),
    if_neg hnc]
  constructor
  · intro hst
    rw [if_pos hst]
    cases convertQuoteToSalesOrder cfg <;> simp
  · intro hst
    rw [if_neg hst]
    simp

/-- C4: with the customer endpoint configured (and the signing credentials
present), a company `creation` event dispatches the customer upsert as a
`POST` to the customer endpoint, and every other company change kind
dispatches it as a `PUT` to the same endpoint. -/
theorem company_event_upsert_method (cfg : Config) (env : CrmEnv) (ev : WebhookEvent)
    (oid sub u : String) (rest : List String)
    (hobj : ev.objectId = some oid)
    (hone : oid.isEmpty = false)
    (hsub : ev.subscriptionType = some sub)
    (hparts : jsSplitDot sub = "company" :: rest)
    (htok : truthyOpt cfg.hubspotToken = true)
    (hurl : cfg.customerUrl = some u)
    (hune : u.isEmpty = false)
    (hcreds : nsEnvComplete cfg = true) :
    (rest.head? = some "creation" →
      (handleHubSpotEvent cfg env ev).erpCall = some ⟨"POST", u⟩ ∧
        (handleHubSpotEvent cfg env ev).action = ErpAction.UpsertCustomerCreate) ∧
    (rest.head? ≠ some "creation" →
      (handleHubSpotEvent cfg env ev).erpCall = some ⟨"PUT", u⟩ ∧
        (handleHubSpotEvent cfg env ev).action = ErpAction.UpsertCustomerUpdate) := by
  have hoid : truthyOpt ev.objectId = true := by
    rw [hobj]
    simp [truthyOpt, hone]
  have hts : truthyOpt ev.subscriptionType = true := by
    rw [hsub]
    exact truthy_subscription_of_split sub "company" _ hparts (by decide)
  have hcall : ∀ m : String, callNetSuite cfg m cfg.customerUrl = .ok (some ⟨m, u⟩) := by
    intro m
    unfold callNetSuite
    rw [hurl]
    rw [if_neg (by simp [truthyOpt, hune])]
    rw [if_neg (by simp [hcreds])]
    simp
  unfold handleHubSpotEvent
  rw [if_neg (by simp [hoid, hts])]
  simp only [hobj, hsub, Option.getD_some, hparts, List.headD_cons, objectTypeMap_company,
    List.drop_succ_cons, List.drop_zero,
    if_neg (show ¬ truthyOpt cfg.hubspotToken = false by simp [htok]),
    if_pos (show ("companies" : String) = "companies" from rfl)]
  constructor
  · intro hcr
    rw [if_pos hcr, hcall "POST"]
    simp
  · intro hcr
    rw [if_neg hcr, hcall "PUT"]
    simp

/-- C10: a well-formed contact event (non-empty `objectId`, raw type mapping
to `contacts`) makes the handler fetch the contact record from the CRM and
then return Skip — the classification-level Skip still incurs a CRM call. -/
theorem contact_event_fetches_before_skip (cfg : Config) (env : CrmEnv) (ev : WebhookEvent)
    (oid sub : String) (rest : List String)
    (hobj : ev.objectId = some oid)
    (hone : oid.isEmpty = false)
    (hsub : ev.subscriptionType = some sub)
    (hparts : jsSplitDot sub = "contact" :: rest)
    (htok : truthyOpt cfg.hubspotToken = true) :
    handleHubSpotEvent cfg env ev =
      ⟨[CrmFetch.object "contacts" oid], none, ErpAction.Skip, false⟩ := by
  have hoid : truthyOpt ev.objectId = true := by
    rw [hobj]
    simp [truthyOpt, hone]
  have hts : truthyOpt ev.subscriptionType = true := by
    rw [hsub]
    exact truthy_subscription_of_split sub "contact" _ hparts (by decide)
  unfold handleHubSpotEvent
  rw [if_neg (by simp [hoid, hts])]
  simp only [hobj, hsub, Option.getD_some, hparts, List.headD_cons, objectTypeMap_contact,
    if_neg (show ¬ truthyOpt cfg.hubspotToken = false by simp [htok]),
    if_neg (show ¬ ("contacts" : String) = "companies" by decide),
    if_pos (show ("contacts" : String) = "contacts" from rfl)]
  simp

/-- A fully-populated configuration used by the concrete witnesses. -/
def cfgW : Config :=
  { hubspotToken := some "token"
    closedWonStageEnv := none
    customerUrl := some "https://ns.example.com/customer"
    itemUrl := some "https://ns.example.com/item"
    salesOrderUrl := some "https://ns.example.com/salesorder"
    skuOverrideEnv := some "my_sku_prop"
    nsAccountId := some "ACCT"
    nsConsumerKey := some "CK"
    nsConsumerSecret := some "CS"
    nsTokenId := some "TK"
    nsTokenSecret := some "TS" }

/-- The empty CRM record. -/
def emptyCrmRecord : CrmRecord := ⟨"", [], none, none⟩

/-- A CRM environment for the concrete witnesses: deal `7` sits at stage
`closedwon` with two associated line items, of which only `L1` carries a SKU
property; `P1` is the catalog item `L1` references (its SKU differs from the
line item's own, so the two resolution readings disagree on it). -/
def envW : CrmEnv :=
  { records := fun t i =>
      if t = "deals" && i = "7" then
        ⟨"7", [("dealstage", "closedwon")], some ["55"], some ["L1", "L2"]⟩
      else if t = "line_items" && i = "L1" then
        ⟨"L1", [("item_sku", "LISKU"), ("hs_product_id", "P1"), ("quantity", "2"), ("price", "9.5")], none, none⟩
      else if t = "line_items" && i = "L2" then
        ⟨"L2", [("quantity", "3")], none, none⟩
      else if t = "products" && i = "P1" then
        ⟨"P1", [("item_sku", "CATSKU")], none, none⟩
      else emptyCrmRecord
    dealAssociations := fun _ _ => [] }

/-- Witness for C1 at `{objectId: "7", subscriptionType: "deal.creation"}`. -/
theorem deal_creation_always_createQuote_witness :
    truthyOpt (some "7") = true ∧ jsSplitDot "deal.creation" = ["deal", "creation"] ∧
      (handleHubSpotEvent cfgW envW ⟨some "7", some "deal.creation"⟩).action =
        ErpAction.CreateQuote :=
  ⟨by decide, by decide,
    deal_creation_always_createQuote cfgW envW ⟨some "7", some "deal.creation"⟩
      "deal.creation" [] (by decide) rfl (by decide) (by decide)⟩

/-- Witness for C2 at `{objectId: "7", subscriptionType: "deal.propertyChange"}`
(deal 7's stage is the closed-won identifier) and at object `9` (whose stage
is not). -/
theorem deal_noncreation_stage_decides_witness :
    ((handleHubSpotEvent cfgW envW ⟨some "7", some "deal.propertyChange"⟩).action =
        ErpAction.ConvertQuoteToOrder) ∧
    ((handleHubSpotEvent cfgW envW ⟨some "9", some "deal.propertyChange"⟩).action =
        ErpAction.Skip) :=
  ⟨(deal_noncreation_stage_decides cfgW envW ⟨some "7", some "deal.propertyChange"⟩
      "7" "deal.propertyChange" ["propertyChange"] rfl (by decide) rfl (by decide)
      (by decide) (by decide)).1 (by decide),
    congrArg HandlerResult.action
      ((deal_noncreation_stage_decides cfgW envW ⟨some "9", some "deal.propertyChange"⟩
        "9" "deal.propertyChange" ["propertyChange"] rfl (by decide) rfl (by decide)
        (by decide) (by decide)).2 (by decide))⟩

/-- Witness for C4 at `{objectId: "42", subscriptionType: "company.creation"}`
and `{objectId: "42", subscriptionType: "company.propertyChange"}`. -/
theorem company_event_upsert_method_witness :
    ((handleHubSpotEvent cfgW envW ⟨some "42", some "company.creation"⟩).erpCall =
        some ⟨"POST", "https://ns.example.com/customer"⟩) ∧
    ((handleHubSpotEvent cfgW envW ⟨some "42", some "company.propertyChange"⟩).erpCall =
        some ⟨"PUT", "https://ns.example.com/customer"⟩) :=
  ⟨((company_event_upsert_method cfgW envW ⟨some "42", some "company.creation"⟩
      "42" "company.creation" "https://ns.example.com/customer" ["creation"] rfl (by decide)
      rfl (by decide) (by decide) rfl (by decide) (by decide)).1 (by decide)).1,
    ((company_event_upsert_method cfgW envW ⟨some "42", some "company.propertyChange"⟩
      "42" "company.propertyChange" "https://ns.example.com/customer" ["propertyChange"] rfl
      (by decide) rfl (by decide) (by decide) rfl (by decide) (by decide)).2 (by decide)).1⟩

/-- Witness for C10 at `{objectId: "5", subscriptionType: "contact.creation"}`:
the handler fetched contact 5 and returned Skip. -/
theorem contact_event_fetches_before_skip_witness :
    handleHubSpotEvent cfgW envW ⟨some "5", some "contact.creation"⟩ =
      ⟨[CrmFetch.object "contacts" "5"], none, ErpAction.Skip, false⟩ :=
  contact_event_fetches_before_skip cfgW envW ⟨some "5", some "contact.creation"⟩
    "5" "contact.creation" ["creation"] rfl (by decide) rfl (by decide) (by decide)

set_option maxRecDepth 100000

/-- C5 counterexample: for the POST against the order RESTlet with query
parameters `a b=1` and `a!b=2` (distinct keys), the code's base string —
raw keys sorted, then encoded — differs from the claim's base string —
pairs sorted by percent-encoded key: ` ` sorts before `!` raw but `%20`
sorts after `!` encoded. -/
theorem oauth_base_string_sort_cex :
    oauthBaseString "POST" "https://ns.example.com/salesorder"
        (signatureParams "CK" "TK" "100" "abc" [("a b", "1"), ("a!b", "2")]) ≠
      claimBaseString "POST" "https://ns.example.com/salesorder"
        (signatureParams "CK" "TK" "100" "abc" [("a b", "1"), ("a!b", "2")]) := by
  decide

/-- C5 (amended): the signature base string is
`METHOD & enc(origin+path) & enc(joined pairs)` over the six `oauth_*`
parameters merged with the URL's query parameters, with the pairs sorted
lexicographically by their RAW (pre-encoding) key and each key and value
percent-encoded, the components being percent-encoded once more before
concatenation. -/
theorem oauth_base_string_sorts_raw_keys (method baseUrl ck tk ts nonce : String)
    (qp : List (String × String)) (h : (qp.map Prod.fst).Nodup) :
    oauthBaseString method baseUrl (signatureParams ck tk ts nonce qp) =
      amendedBaseString method baseUrl (signatureParams ck tk ts nonce qp) := by
  unfold oauthBaseString amendedBaseString
  rw [sortedParamString_eq_amended _ (signatureParams_fst_nodup ck tk ts nonce qp h)]

/-- Witness for the amended C5 at the counterexample's own inputs. -/
theorem oauth_base_string_sorts_raw_keys_witness :
    ((([("a b", "1"), ("a!b", "2")] : List (String × String)).map Prod.fst).Nodup) ∧
      oauthBaseString "POST" "https://ns.example.com/salesorder"
          (signatureParams "CK" "TK" "100" "abc" [("a b", "1"), ("a!b", "2")]) =
        amendedBaseString "POST" "https://ns.example.com/salesorder"
          (signatureParams "CK" "TK" "100" "abc" [("a b", "1"), ("a!b", "2")]) :=
  ⟨by decide,
    oauth_base_string_sorts_raw_keys "POST" "https://ns.example.com/salesorder"
      "CK" "TK" "100" "abc" [("a b", "1"), ("a!b", "2")] (by decide)⟩

/-- C6 counterexample: line item `L1` carries `item_sku = "LISKU"` and
references catalog item `P1` whose `item_sku` is `"CATSKU"`.  The code reads
the identifier from the LINE ITEM's own record; the claim's reading — fetch
the referenced catalog item and read the field there — produces a different
result. -/
theorem lineItem_identifier_from_catalog_cex :
    resolveLineItems cfgW envW ["L1"] ≠ claimResolveLineItems cfgW envW ["L1"] := by
  decide

/-- C6 (amended): the resolver fetches each line item's OWN record and reads
the designated identifier field from the line item's own properties (first
truthy candidate in fixed priority order); the referenced catalog-item
record is never fetched — the outcome is invariant under any change of the
CRM environment that keeps line-item records and the associations API fixed,
no `products` object fetch ever occurs, and every produced item's identifier
is the first truthy SKU candidate of its line item's property bag. -/
theorem lineItem_identifier_read_from_lineItem_record (cfg : Config)
    (env env2 : CrmEnv) (deal : CrmRecord) (ids : List String) (li : LineItem)
    (hrec : ∀ i, env.records "line_items" i = env2.records "line_items" i)
    (hassoc : env.dealAssociations = env2.dealAssociations)
    (hmem : li ∈ resolveLineItems cfg env ids) :
    createSalesOrderInNS cfg env deal = createSalesOrderInNS cfg env2 deal ∧
      (∀ pid, CrmFetch.object "products" pid ∉ (createSalesOrderInNS cfg env deal).fetches) ∧
      firstTruthyProp (env.records "line_items" li.hubspotLineItemId).properties
        (skuPropCandidates cfg) = some li.itemInternalId :=
  ⟨createSalesOrderInNS_congr cfg env env2 deal hrec hassoc,
    fun pid => createSalesOrderInNS_no_products_fetch cfg env deal pid,
    itemInternalId_from_lineItem_props cfg env ids li hmem⟩

/-- `envW` with every catalog-item (`products`) record replaced: line-item
records and the associations API are untouched. -/
def envW2 : CrmEnv :=
  { records := fun t i =>
      if t = "products" then ⟨"P1", [("item_sku", "OTHERSKU")], none, none⟩
      else envW.records t i
    dealAssociations := envW.dealAssociations }

/-- The deal record the witnesses resolve. -/
def dealW : CrmRecord := envW.records "deals" "7"

/-- Witness for the amended C6 at deal 7 / line items `L1`, `L2`. -/
theorem lineItem_identifier_read_from_lineItem_record_witness :
    (⟨"LISKU", 2, some (mkRat 19 2), "L1"⟩ : LineItem) ∈ resolveLineItems cfgW envW ["L1", "L2"] ∧
      createSalesOrderInNS cfgW envW dealW = createSalesOrderInNS cfgW envW2 dealW ∧
      CrmFetch.object "products" "P1" ∉ (createSalesOrderInNS cfgW envW dealW).fetches ∧
      firstTruthyProp (envW.records "line_items" "L1").properties (skuPropCandidates cfgW) =
        some "LISKU" :=
  ⟨by decide,
    (lineItem_identifier_read_from_lineItem_record cfgW envW envW2 dealW ["L1", "L2"]
      ⟨"LISKU", 2, some (mkRat 19 2), "L1"⟩ (fun i => rfl) rfl (by decide)).1,
    (lineItem_identifier_read_from_lineItem_record cfgW envW envW2 dealW ["L1", "L2"]
      ⟨"LISKU", 2, some (mkRat 19 2), "L1"⟩ (fun i => rfl) rfl (by decide)).2.1 "P1",
    (lineItem_identifier_read_from_lineItem_record cfgW envW envW2 dealW ["L1", "L2"]
      ⟨"LISKU", 2, some (mkRat 19 2), "L1"⟩ (fun i => rfl) rfl (by decide)).2.2⟩

/-- C7: for every deal (whatever its number and mix of resolved line-item
ids), the built `OrderPayload.lineItems` contains exactly the resolvable
ids' line items, each built from its own properties (never a placeholder),
with every unresolvable one excluded; in particular, when exactly one of two
resolved ids is resolvable — in either order — the payload holds exactly
that one entry. -/
theorem orderPayload_keeps_exactly_resolvable (cfg : Config) (env : CrmEnv) (deal : CrmRecord)
    (htok : truthyOpt cfg.hubspotToken = true) :
    ((createSalesOrderInNS cfg env deal).payload).map OrderPayload.lineItems =
      some (((resolveLineItemIds env deal).2.filter (fun i =>
          (firstTruthyProp (env.records "line_items" i).properties
            (skuPropCandidates cfg)).isSome)).map
        (fun i => mkLineItem cfg (env.records "line_items" i).properties i)) ∧
    (∀ a b, (resolveLineItemIds env deal).2 = [a, b] →
      ((firstTruthyProp (env.records "line_items" a).properties (skuPropCandidates cfg)).isSome
          = true →
        (firstTruthyProp (env.records "line_items" b).properties (skuPropCandidates cfg)).isSome
          = false →
        ((createSalesOrderInNS cfg env deal).payload).map OrderPayload.lineItems =
          some [mkLineItem cfg (env.records "line_items" a).properties a]) ∧
      ((firstTruthyProp (env.records "line_items" a).properties (skuPropCandidates cfg)).isSome
          = false →
        (firstTruthyProp (env.records "line_items" b).properties (skuPropCandidates cfg)).isSome
          = true →
        ((createSalesOrderInNS cfg env deal).payload).map OrderPayload.lineItems =
          some [mkLineItem cfg (env.records "line_items" b).properties b])) := by
  have hmain : ((createSalesOrderInNS cfg env deal).payload).map OrderPayload.lineItems =
      some (((resolveLineItemIds env deal).2.filter (fun i =>
          (firstTruthyProp (env.records "line_items" i).properties
            (skuPropCandidates cfg)).isSome)).map
        (fun i => mkLineItem cfg (env.records "line_items" i).properties i)) := by
    unfold createSalesOrderInNS
    rw [if_neg (by simp [htok])]
    cases hcall : callNetSuite cfg "POST" cfg.salesOrderUrl with
    | ok r =>
      simp only [hcall, Option.map_some]
      rw [resolveLineItems_eq_filter_map]
      rfl
    | error e =>
      simp only [hcall, Option.map_some]
      rw [resolveLineItems_eq_filter_map]
      rfl
  refine ⟨hmain, ?_⟩
  intro a b hids
  constructor
  · intro ha hb
    rw [hmain, hids]
    simp [List.filter_cons, ha, hb]
  · intro ha hb
    rw [hmain, hids]
    simp [List.filter_cons, ha, hb]

/-- Environment for the C7 witness's unresolvable-first order: deal `8`
carries the same two line items as deal `7` but associated as `[L2, L1]`,
so the resolvable `L1` comes second. -/
def envW7 : CrmEnv :=
  { records := fun t i =>
      if t = "deals" && i = "8" then ⟨"8", [], some ["55"], some ["L2", "L1"]⟩
      else envW.records t i
    dealAssociations := envW.dealAssociations }

/-- The deal record of the `envW7` witness. -/
def dealW7 : CrmRecord := envW7.records "deals" "8"

/-- Witness for C7: the general payload equation at deal 7 (`L1` resolvable,
`L2` not), and the one-of-two instance with the resolvable item SECOND at
deal 8 (`[L2, L1]`), each yielding exactly the one resolvable entry. -/
theorem orderPayload_keeps_exactly_resolvable_witness :
    (((createSalesOrderInNS cfgW envW dealW).payload).map OrderPayload.lineItems =
      some (((resolveLineItemIds envW dealW).2.filter (fun i =>
          (firstTruthyProp (envW.records "line_items" i).properties
            (skuPropCandidates cfgW)).isSome)).map
        (fun i => mkLineItem cfgW (envW.records "line_items" i).properties i))) ∧
    (resolveLineItemIds envW7 dealW7).2 = ["L2", "L1"] ∧
    ((createSalesOrderInNS cfgW envW7 dealW7).payload).map OrderPayload.lineItems =
      some [mkLineItem cfgW (envW7.records "line_items" "L1").properties "L1"] :=
  ⟨(orderPayload_keeps_exactly_resolvable cfgW envW dealW (by decide)).1,
    by decide,
    ((orderPayload_keeps_exactly_resolvable cfgW envW7 dealW7 (by decide)).2 "L2" "L1"
      (by decide)).2 (by decide) (by decide)⟩

/-- A CRM environment whose line item `LP` has a SKU but no price and no
quantity property. -/
def envP : CrmEnv :=
  { records := fun t i =>
      if t = "line_items" && i = "LP" then ⟨"LP", [("item_sku", "SKU9")], none, none⟩
      else emptyCrmRecord
    dealAssociations := fun _ _ => [] }

/-- C8 counterexample: line item `LP` has no `price` property at all, yet the
built line item's rate is `0` — present, not absent (`parseFloat('0')` from
the `props.price || '0'` default is `0`, which is not `NaN`). -/
theorem rate_not_absent_when_price_missing_cex :
    getProp (envP.records "line_items" "LP").properties "price" = none ∧
      resolveLineItems cfgW envP ["LP"] = [⟨"SKU9", 1, some 0, "LP"⟩] := by
  decide

/-- C8 (amended): a missing or non-numeric `quantity` yields quantity `1`;
a PRESENT, non-empty, non-numeric `price` yields an absent rate; but a
missing (or empty) `price` yields rate `0`, not an absent rate. -/
theorem lineItem_numeric_coercion (props : List (String × String)) :
    (getProp props "quantity" = none → liQuantity props = 1) ∧
    (∀ v, getProp props "quantity" = some v → parseFloat v = none → liQuantity props = 1) ∧
    (getProp props "price" = none → liRate props = some 0) ∧
    (∀ v, getProp props "price" = some v → v.isEmpty = true → liRate props = some 0) ∧
    (∀ v, getProp props "price" = some v → v.isEmpty = false → parseFloat v = none →
      liRate props = none) := by
  refine ⟨?_, ?_, ?_, ?_, ?_⟩
  · intro h
    unfold liQuantity
    rw [h]
    decide
  · intro v hv hnone
    unfold liQuantity
    rw [hv]
    by_cases he : v.isEmpty = true
    · simp only [jsOrStr, he, if_true]
      decide
    · simp [jsOrStr, he, hnone]
  · intro h
    unfold liRate
    rw [h]
    decide
  · intro v hv he
    unfold liRate
    rw [hv]
    simp only [jsOrStr, he, if_true]
    decide
  · intro v hv he hnone
    unfold liRate
    rw [hv]
    simp [jsOrStr, he, hnone]

/-- Witness for the amended C8: no quantity → 1; `quantity = "abc"` → 1;
no price → rate 0; `price = ""` → rate 0; `price = "abc"` → rate absent. -/
theorem lineItem_numeric_coercion_witness :
    liQuantity [("price", "5")] = 1 ∧ liQuantity [("quantity", "abc")] = 1 ∧
      liRate [] = some 0 ∧ liRate [("price", "")] = some 0 ∧ liRate [("price", "abc")] = none :=
  ⟨(lineItem_numeric_coercion [("price", "5")]).1 (by decide),
    (lineItem_numeric_coercion [("quantity", "abc")]).2.1 "abc" (by decide) (by decide),
    (lineItem_numeric_coercion []).2.2.1 (by decide),
    (lineItem_numeric_coercion [("price", "")]).2.2.2.1 "" (by decide) (by decide),
    (lineItem_numeric_coercion [("price", "abc")]).2.2.2.2 "abc" (by decide) (by decide)
      (by decide)⟩

/-- C9: the candidate chain is the three built-in names followed by the
(filtered) environment override, so whenever some built-in name already
carries a truthy value, the chosen identifier is the one computed from the
built-ins alone — the override cannot determine it. -/
theorem sku_override_tried_last (cfg : Config) (props : List (String × String))
    (h : (firstTruthyProp props builtinSkuCandidates).isSome = true) :
    skuPropCandidates cfg = builtinSkuCandidates ++ jsFilterBoolean [cfg.skuOverrideEnv] ∧
      firstTruthyProp props (skuPropCandidates cfg) = firstTruthyProp props builtinSkuCandidates := by
  refine ⟨skuPropCandidates_eq cfg, ?_⟩
  rw [skuPropCandidates_eq cfg]
  exact firstTruthyProp_append_of_isSome props _ _ h

/-- Witness for C9: with override `my_sku_prop` configured and a line item
carrying both `sku` and `my_sku_prop`, the built-in `sku` wins. -/
theorem sku_override_tried_last_witness :
    (firstTruthyProp [("sku", "S1"), ("my_sku_prop", "S2")] builtinSkuCandidates).isSome = true ∧
      skuPropCandidates cfgW = builtinSkuCandidates ++ jsFilterBoolean [cfgW.skuOverrideEnv] ∧
      firstTruthyProp [("sku", "S1"), ("my_sku_prop", "S2")] (skuPropCandidates cfgW) =
        firstTruthyProp [("sku", "S1"), ("my_sku_prop", "S2")] builtinSkuCandidates :=
  ⟨by decide, sku_override_tried_last cfgW [("sku", "S1"), ("my_sku_prop", "S2")] (by decide)⟩
